import Mathlib

/-!
Verification of the rate-limited, retrying API-fetch pipeline of the
data-scraper agent (`src/agents/data-scraper/src/clients/api_client.py`):
the `ApiClient` rate-limit admission check, the retry loop of
`make_request`, the authentication-header assembly, the dotted-path
extraction, and the `DataProcessor` mapping/filter/validation pipeline.

Python dynamic values (the JSON-like data handled by the client) are
embedded as the inductive type `Value`; Python `dict`s are embedded as
ordered association lists with Python's update-in-place-or-append
assignment semantics; `float` timestamps are embedded as rationals.
-/

namespace ApiClientSpec

/-- JSON-like dynamic values, as handled by the Python client.
Numbers are embedded as integers (no claim depends on non-integral
numbers); `vBool` is kept separate from `vInt`, and predicates that
mirror Python `isinstance` checks account for `bool` being a subtype of
`int` in Python. -/
inductive Value where
  | vNull
  | vBool (b : Bool)
  | vInt (n : Int)
  | vStr (s : String)
  | vList (xs : List Value)
  | vDict (fields : List (String × Value))

/-- Python truthiness (`bool(v)`) for embedded values. -/
def truthy : Value → Bool
  | .vNull => false
  | .vBool b => b
  | .vInt n => n != 0
  | .vStr s => s != ""
  | .vList xs => !xs.isEmpty
  | .vDict fs => !fs.isEmpty

/-- `isinstance(v, str)`. -/
def isStr : Value → Bool
  | .vStr _ => true
  | _ => false

/-- `isinstance(v, (int, float))`.  In Python `bool` is a subtype of
`int`, so booleans count as numbers. -/
def isNum : Value → Bool
  | .vInt _ => true
  | .vBool _ => true
  | _ => false

/-- `isinstance(v, bool)`. -/
def isBool : Value → Bool
  | .vBool _ => true
  | _ => false

/-- Numeric magnitude of a Python number (`bool` coerces to 0/1);
`none` for values that are not numbers. -/
def numOf : Value → Option Int
  | .vInt n => some n
  | .vBool b => some (if b then 1 else 0)
  | _ => none

/-- Python `v == "lit"` comparison of a dynamic value against a string
literal: true exactly for an equal string. -/
def valEqStr : Value → String → Bool
  | .vStr s, t => s == t
  | _, _ => false

/-- Python `v is None or v == ""` (the `required` test of
`_validate_field`). -/
def isNullOrEmptyStr : Value → Bool
  | .vNull => true
  | .vStr s => s == ""
  | _ => false

/-! ### Python `dict` as an ordered association list -/

/-- `d[k]` lookup (first binding wins; a well-formed Python dict has at
most one binding per key). -/
def dlookup {α : Type} : List (String × α) → String → Option α
  | [], _ => none
  | (k', v) :: rest, k => if k' = k then some v else dlookup rest k

/-- `k in d`. -/
def dmem {α : Type} (d : List (String × α)) (k : String) : Bool :=
  (dlookup d k).isSome

/-- `d[k] = v` assignment: replaces the binding in place if the key is
present, appends otherwise (Python dicts preserve insertion order). -/
def dset {α : Type} : List (String × α) → String → α → List (String × α)
  | [], k, v => [(k, v)]
  | (k', v') :: rest, k, v =>
      if k' = k then (k, v) :: rest else (k', v') :: dset rest k v

/-- `d.update(other)`: assign every binding of `other` into `d`, in
order. -/
def dupdate {α : Type} (d other : List (String × α)) : List (String × α) :=
  other.foldl (fun acc p => dset acc p.1 p.2) d

/-- `list(d.keys())`. -/
def dkeys {α : Type} (d : List (String × α)) : List String :=
  d.map Prod.fst

theorem dlookup_dset_self {α : Type} (d : List (String × α)) (k : String) (v : α) :
    dlookup (dset d k v) k = some v := by
  induction d with
  | nil => simp [dset, dlookup]
  | cons hd tl ih =>
      obtain ⟨k', v'⟩ := hd
      by_cases h : k' = k
      · simp [dset, h, dlookup]
      · simp [dset, h, dlookup, ih]

theorem dlookup_dset_ne {α : Type} (d : List (String × α)) (k k' : String) (v : α)
    (h : k' ≠ k) : dlookup (dset d k v) k' = dlookup d k' := by
  have h' : ¬(k = k') := fun hh => h hh.symm
  induction d with
  | nil => simp [dset, dlookup, h']
  | cons hd tl ih =>
      obtain ⟨k₀, v₀⟩ := hd
      by_cases h₀ : k₀ = k
      · subst h₀
        simp [dset, dlookup, h']
      · simp [dset, h₀, dlookup, ih]

theorem mem_dkeys_of_dlookup {α : Type} (d : List (String × α)) (k : String) (v : α)
    (h : dlookup d k = some v) : k ∈ dkeys d := by
  induction d with
  | nil => simp [dlookup] at h
  | cons hd tl ih =>
      obtain ⟨k₀, v₀⟩ := hd
      by_cases h₀ : k₀ = k
      · simp [dkeys, h₀]
      · simp only [dlookup, if_neg h₀] at h
        simp [dkeys] at ih ⊢
        exact Or.inr (ih h)

theorem dlookup_eq_none_of_not_mem {α : Type} (d : List (String × α)) (k : String)
    (h : k ∉ dkeys d) : dlookup d k = none := by
  cases hl : dlookup d k with
  | none => rfl
  | some v => exact absurd (mem_dkeys_of_dlookup d k v hl) h

theorem dkeys_dset_of_mem {α : Type} (d : List (String × α)) (k : String) (v : α)
    (h : dmem d k = true) : dkeys (dset d k v) = dkeys d := by
  induction d with
  | nil => simp [dmem, dlookup] at h
  | cons hd tl ih =>
      obtain ⟨k₀, v₀⟩ := hd
      by_cases h₀ : k₀ = k
      · simp [dset, h₀, dkeys]
      · simp only [dmem, dlookup, if_neg h₀] at h
        have htl := ih h
        simp only [dkeys] at htl ⊢
        simp [dset, h₀, htl]

theorem dmem_dset {α : Type} (d : List (String × α)) (k k' : String) (v : α) :
    dmem (dset d k v) k' = (decide (k' = k) || dmem d k') := by
  by_cases h : k' = k
  · subst h
    simp [dmem, dlookup_dset_self]
  · simp [dmem, dlookup_dset_ne d k k' v h, h]

/-- Looking a key up after `dupdate`: a binding in `other` (whose keys
are assumed unrepeated) wins; otherwise the original binding is kept. -/
theorem dlookup_dupdate {α : Type} (other : List (String × α))
    (hnd : (dkeys other).Nodup) (d : List (String × α)) (k : String) :
    dlookup (dupdate d other) k =
      match dlookup other k with
      | some v => some v
      | none => dlookup d k := by
  induction other generalizing d with
  | nil => simp [dupdate, dlookup]
  | cons hd tl ih =>
      obtain ⟨k₀, v₀⟩ := hd
      simp only [dkeys, List.map_cons, List.nodup_cons] at hnd
      obtain ⟨hk₀, hnd'⟩ := hnd
      have step : dupdate d ((k₀, v₀) :: tl) = dupdate (dset d k₀ v₀) tl := by
        simp [dupdate]
      rw [step, ih hnd' (dset d k₀ v₀)]
      by_cases h : k₀ = k
      · subst h
        have hnone : dlookup tl k₀ = none :=
          dlookup_eq_none_of_not_mem tl k₀ (by simpa [dkeys] using hk₀)
        simp [dlookup, hnone, dlookup_dset_self]
      · have hne : k ≠ k₀ := fun hh => h hh.symm
        cases hl : dlookup tl k with
        | none => simp [dlookup, if_neg h, hl, dlookup_dset_ne d k₀ k v₀ hne]
        | some v => simp [dlookup, if_neg h, hl]

/-! ### Rate limiting (`ApiClient._check_rate_limit`)

Timestamps (Python `time.time()` floats) are embedded as rationals.
The admission check is the direct translation of
`ApiClient._check_rate_limit`: prune the timestamp log to the trailing
hour, store the pruned log, then run the hourly check, the per-minute
check and the pacing check on the pruned log.  A raised
`RateLimitExceededError` is embedded as a `reject...` decision, the
pacing `asyncio.sleep` as `waitThen`, and the `ValueError` that Python's
`min([])` raises (reachable when a limit is configured `≤ 0`) as
`valueError`. -/

/-- `RateLimit` pydantic model: `requests_per_minute: int`,
`requests_per_hour: int`, `delay_between_requests: float`.  pydantic
puts no range constraint on any field. -/
structure RateLimit where
  requests_per_minute : Int
  requests_per_hour : Int
  delay_between_requests : ℚ
  deriving DecidableEq

/-- Outcome of one `_check_rate_limit` call. -/
inductive RateDecision where
  /-- fall through: the request proceeds immediately -/
  | proceed
  /-- pacing branch: `asyncio.sleep(wait)`, then the request proceeds -/
  | waitThen (wait : ℚ)
  /-- `RateLimitExceededError("Hourly rate limit exceeded...")` -/
  | rejectHourly (wait : ℚ)
  /-- `RateLimitExceededError("Per-minute rate limit exceeded...")` -/
  | rejectMinute (wait : ℚ)
  /-- Python `min([])` raising `ValueError` -/
  | valueError
  deriving DecidableEq

/-- The request is let through (immediately or after the pacing sleep). -/
def RateDecision.isAdmit : RateDecision → Bool
  | .proceed => true
  | .waitThen _ => true
  | _ => false

/-- The decision is the per-minute-limit rejection. -/
def RateDecision.isMinuteReject : RateDecision → Bool
  | .rejectMinute _ => true
  | _ => false

/-- `self.request_times = [t for t in self.request_times if current_time - t < 3600]`. -/
def pruneLog (now : ℚ) (log : List ℚ) : List ℚ :=
  log.filter (fun t => decide (now - t < 3600))

/-- Delay pacing (the final block of `_check_rate_limit`):
`if self.request_times and delay_between_requests > 0` and the time
since the last request is below the configured delay, sleep for the
difference; the request then proceeds. -/
def paceDecision (rl : RateLimit) (pruned : List ℚ) (now : ℚ) : RateDecision :=
  match pruned.getLast? with
  | some last =>
      if 0 < rl.delay_between_requests then
        if now - last < rl.delay_between_requests then
          .waitThen (rl.delay_between_requests - (now - last))
        else .proceed
      else .proceed
  | none => .proceed

/-- Per-minute check of `_check_rate_limit`:
`recent_requests = [t for t in self.request_times if current_time - t < 60]`,
reject when `len(recent_requests) >= requests_per_minute` and the
computed wait is positive. -/
def minuteDecision (rl : RateLimit) (pruned : List ℚ) (now : ℚ) : RateDecision :=
  let recent := pruned.filter (fun t => decide (now - t < 60))
  if rl.requests_per_minute ≤ (recent.length : Int) then
    match recent.min? with
    | none => .valueError
    | some oldest =>
        if 0 < 60 - (now - oldest) then .rejectMinute (60 - (now - oldest))
        else paceDecision rl pruned now
  else paceDecision rl pruned now

/-- Hourly check of `_check_rate_limit`: reject when
`len(self.request_times) >= requests_per_hour` and the computed wait is
positive; otherwise fall through to the per-minute check. -/
def rateDecision (rl : RateLimit) (pruned : List ℚ) (now : ℚ) : RateDecision :=
  if rl.requests_per_hour ≤ (pruned.length : Int) then
    match pruned.min? with
    | none => .valueError
    | some oldest =>
        if 0 < 3600 - (now - oldest) then .rejectHourly (3600 - (now - oldest))
        else minuteDecision rl pruned now
  else minuteDecision rl pruned now

/-- `ApiClient._check_rate_limit`: prunes and stores the timestamp log,
then decides.  Returns the stored log together with the decision. -/
def checkRateLimit (rl : RateLimit) (log : List ℚ) (now : ℚ) : List ℚ × RateDecision :=
  let pruned := pruneLog now log
  (pruned, rateDecision rl pruned now)

/-- One executor issuing a burst of requests at the given instants: each
request runs the admission check; an admitted (dispatched) request
appends its timestamp to the log (`self.request_times.append(time.time())`
in `make_request`); a rejected one appends nothing.  Returns the final
log and the list of decisions. -/
def runBurst (rl : RateLimit) : List ℚ → List ℚ → List ℚ × List RateDecision
  | log, [] => (log, [])
  | log, t :: rest =>
      let r := checkRateLimit rl log t
      let log' := if r.2.isAdmit then r.1 ++ [t] else r.1
      let res := runBurst rl log' rest
      (res.1, r.2 :: res.2)

/-! ### Dotted-path extraction (`ApiClient._extract_data_path`) -/

/-- Python `str.split(sep)` for a one-character separator, over
character lists (`"".split(".") == [""]`, `"a..b".split(".") ==
["a", "", "b"]`). -/
def splitOnChar (sep : Char) : List Char → List (List Char)
  | [] => [[]]
  | c :: rest =>
      let r := splitOnChar sep rest
      if c = sep then [] :: r
      else
        match r with
        | h :: t => (c :: h) :: t
        | [] => [[c]]

/-- `part.isdigit()` followed by `int(part)`: the numeric value of a
non-empty all-digit segment, `none` otherwise. -/
def segIndex (cs : List Char) : Option Nat :=
  if cs ≠ [] ∧ cs.all Char.isDigit then
    some (cs.foldl (fun acc c => acc * 10 + (c.toNat - '0'.toNat)) 0)
  else none

/-- The navigation loop of `_extract_data_path`: descend into a dict
when the segment is a present key, into a list when the segment is a
digit string and the index is in range (an out-of-range index raises
`IndexError`, which the surrounding `except` turns into the same
fail-soft outcome); `none` means the loop failed at some segment. -/
def navigate : Value → List (List Char) → Option Value
  | cur, [] => some cur
  | cur, part :: rest =>
      match cur with
      | .vDict fields =>
          match dlookup fields (String.mk part) with
          | some v => navigate v rest
          | none => none
      | .vList xs =>
          match segIndex part with
          | some i =>
              match xs[i]? with
              | some x => navigate x rest
              | none => none
          | none => none
      | _ => none

/-- `ApiClient._extract_data_path`: if the path starts with `"$."`,
split the remainder on `"."` and navigate; on any failure (including a
path not starting with `"$."`, or any exception) return the original
data unchanged. -/
def extractDataPath (data : Value) (data_path : String) : Value :=
  match data_path.toList with
  | '$' :: '.' :: rest =>
      match navigate data (splitOnChar '.' rest) with
      | some v => v
      | none => data
  | _ => data

/-! ### The retry loop of `ApiClient.make_request` (lines 117-177)

The network is embedded as a script `Nat → AttemptOutcome` giving the
outcome of the `n`-th `session.request` call (0-based).  A `response`
outcome carries the HTTP status, the parsed body (the result of
`_parse_response`, abstracting the external json/xml parsers over the
raw text), the raw body text, the response headers and the final URL.
The `asyncio.sleep(2**attempt)` backoff does not influence any returned
value and is not represented.  The `request_kwargs` dict, from which the
loop `pop`s the `"url"` key (without a default) on every iteration, is
embedded explicitly, since a missing `"url"` raises `KeyError`. -/

/-- `HttpMethod` enumeration. -/
inductive HttpMethod where
  | get
  | post
  | put
  | delete
  | patch
  deriving DecidableEq

/-- `ApiEndpoint` pydantic model (fields used by `make_request`).
`retry_attempts` is embedded as `Nat`: a retry budget is a count. -/
structure ApiEndpoint where
  name : String
  url : String
  method : HttpMethod
  headers : List (String × String)
  params : List (String × Value)
  body : Option (List (String × Value))
  timeout : Int
  retry_attempts : Nat
  data_path : Option String

/-- Outcome of one `session.request` call. -/
inductive AttemptOutcome where
  /-- `aiohttp.ClientError` raised by the transport -/
  | transportError (msg : String)
  /-- a response arrived -/
  | response (status : Nat) (parsed : Value) (bodyText : String)
      (respHeaders : List (String × String)) (finalUrl : String)

/-- Exception raised inside the `try` block (other than `ClientError`). -/
inductive PyError where
  /-- `ApiClientError(f"HTTP {status}: {text}")` from the status check -/
  | apiHttpError (status : Nat) (text : String)
  /-- `KeyError` from `request_kwargs.pop(key)` on a missing key -/
  | keyError (key : String)
  deriving DecidableEq

/-- Error with which `make_request` fails (all are `ApiClientError`s). -/
inductive FetchError where
  /-- `except Exception` wrapper:
      `ApiClientError(f"Unexpected error during request: {e}")` -/
  | unexpected (inner : PyError)
  /-- `ApiClientError(f"Request failed after {n} attempts: {msg}")`
      when the last allowed attempt fails with `ClientError` -/
  | exhausted (attempts : Nat) (msg : String)
  /-- line 177: `ApiClientError("Request failed after all retry attempts")` -/
  | fellThrough
  deriving DecidableEq

/-- The dict returned by a successful `make_request`. -/
structure FetchResult where
  status_code : Nat
  data : Value
  headers : List (String × String)
  url : String

/-- The `request_kwargs` dict; every field the loop pops.  Only `"url"`
is popped without a default. -/
structure RequestKwargs where
  url : Option String
  headers : Option (List (String × String))
  timeout : Option Int
  params : Option (List (String × Value))
  json : Option (List (String × Value))

/-- Lines 101-115 of `make_request`: the initial `request_kwargs`.
`params`/`json` are included only when truthy (non-empty), and `json`
only for non-GET/DELETE methods. -/
def initialKwargs (ep : ApiEndpoint) (url : String)
    (headers : List (String × String)) : RequestKwargs :=
  let base : RequestKwargs :=
    { url := some url, headers := some headers, timeout := some ep.timeout,
      params := none, json := none }
  match ep.method with
  | .get | .delete =>
      if ep.params.isEmpty then base else { base with params := some ep.params }
  | _ =>
      let b1 :=
        match ep.body with
        | some b => if b.isEmpty then base else { base with json := some b }
        | none => base
      if ep.params.isEmpty then b1 else { b1 with params := some ep.params }

/-- The retry loop (`for attempt in range(endpoint.retry_attempts + 1)`),
fuelled by the number of remaining loop iterations.  Each iteration
first pops the request parameters from `request_kwargs` — `pop("url")`
raises `KeyError` when absent (every iteration after the first), caught
by `except Exception` and wrapped as an "Unexpected error" — then runs
the `session.request` call.  A `ClientError` retries unless this was the
last allowed attempt; a status `≥ 400` raises `ApiClientError`, likewise
wrapped by `except Exception`.  Returns the outcome and the number of
`session.request` invocations performed. -/
def requestLoop (ep : ApiEndpoint) (script : Nat → AttemptOutcome) :
    Nat → Nat → RequestKwargs → Nat → Except FetchError FetchResult × Nat
  | 0, _, _, calls => (.error .fellThrough, calls)
  | fuel + 1, attemptIdx, kw, calls =>
      match kw.url with
      | none => (.error (.unexpected (.keyError "url")), calls)
      | some _u =>
          match script calls with
          | .transportError msg =>
              if attemptIdx = ep.retry_attempts then
                (.error (.exhausted (ep.retry_attempts + 1) msg), calls + 1)
              else
                requestLoop ep script fuel (attemptIdx + 1)
                  { url := none, headers := none, timeout := none,
                    params := none, json := none } (calls + 1)
          | .response status parsed bodyText respHeaders finalUrl =>
              if 400 ≤ status then
                (.error (.unexpected (.apiHttpError status bodyText)), calls + 1)
              else
                let data :=
                  match ep.data_path with
                  | some p => extractDataPath parsed p
                  | none => parsed
                (.ok ⟨status, data, respHeaders, finalUrl⟩, calls + 1)

/-- The attempt phase of `make_request` for one endpoint: the retry loop
started on the freshly built `request_kwargs` with attempt index 0. -/
def makeRequestAttempts (ep : ApiEndpoint) (url : String)
    (headers : List (String × String)) (script : Nat → AttemptOutcome) :
    Except FetchError FetchResult × Nat :=
  requestLoop ep script (ep.retry_attempts + 1) 0 (initialKwargs ep url headers) 0

/-! ### Authentication headers (`ApiClient._build_auth_headers`) -/

/-- `AuthType` enumeration. -/
inductive AuthType where
  | none
  | api_key
  | bearer_token
  | basic_auth
  | oauth2
  deriving DecidableEq

/-- `Authentication` pydantic model (optional string fields default to
`None`). -/
structure Authentication where
  type : AuthType
  api_key_name : Option String := Option.none
  api_key_value : Option String := Option.none
  bearer_token : Option String := Option.none
  username : Option String := Option.none
  password : Option String := Option.none
  oauth2_config : Option (List (String × Value)) := Option.none

/-- Python truthiness of an `Optional[str]`: `None` and `""` are falsy. -/
def strTruthy : Option String → Bool
  | some s => s != ""
  | Option.none => false

/-- Standard base64 alphabet. -/
def base64Table : List Char :=
  "ABCDEFGHIJKLMNOPQRSTUVWXYZabcdefghijklmnopqrstuvwxyz0123456789+/".toList

/-- Character of the base64 alphabet at a 6-bit index. -/
def b64c (n : Nat) : Char :=
  base64Table.getD n '?'

/-- Base64 of a byte sequence (`base64.b64encode`). -/
def base64EncodeBytes : List Nat → List Char
  | b1 :: b2 :: b3 :: rest =>
      let n := ((b1 % 256) * 256 + b2 % 256) * 256 + b3 % 256
      b64c (n / 262144) :: b64c (n / 4096 % 64) :: b64c (n / 64 % 64) :: b64c (n % 64)
        :: base64EncodeBytes rest
  | [b1, b2] =>
      let n := ((b1 % 256) * 256 + b2 % 256) * 256
      [b64c (n / 262144), b64c (n / 4096 % 64), b64c (n / 64 % 64), '=']
  | [b1] =>
      let n := (b1 % 256) * 65536
      [b64c (n / 262144), b64c (n / 4096 % 64), '=', '=']
  | [] => []

/-- `base64.b64encode(s.encode()).decode()`. -/
def base64Encode (s : String) : String :=
  String.mk (base64EncodeBytes (s.toUTF8.toList.map (fun b => b.toNat)))

/-- `ApiClient._build_auth_headers`: headers derived from the
authentication configuration.  Each guard mirrors Python's
`if x and y` truthiness on the optional strings. -/
def buildAuthHeaders (a : Authentication) : List (String × String) :=
  match a.type with
  | .api_key =>
      if strTruthy a.api_key_name && strTruthy a.api_key_value then
        [(a.api_key_name.getD "", a.api_key_value.getD "")]
      else []
  | .bearer_token =>
      if strTruthy a.bearer_token then
        [("Authorization", "Bearer " ++ a.bearer_token.getD "")]
      else []
  | .basic_auth =>
      if strTruthy a.username && strTruthy a.password then
        [("Authorization",
          "Basic " ++ base64Encode (a.username.getD "" ++ ":" ++ a.password.getD ""))]
      else []
  | _ => []

/-- Lines 96-98 of `make_request`:
`headers = endpoint.headers.copy(); headers.update(auth_headers)`. -/
def assembleHeaders (ep_headers : List (String × String)) (a : Authentication) :
    List (String × String) :=
  dupdate ep_headers (buildAuthHeaders a)

/-! ### Regular expressions (for `re.match` in `_validate_field`)

Regex patterns are embedded as an abstract syntax tree with a standard
Brzozowski-derivative matcher (the external `re` module compiles pattern
strings; only well-formed patterns are representable here).
`Regex.fullmatch r cs` decides whether the whole character list belongs
to the language of `r`; `reMatch` has `re.match` semantics: the regex
must match at the start of the string, but may match any n-character
head of it (it need not consume the whole string). -/

/-- Regex abstract syntax. -/
inductive Regex where
  /-- matches nothing -/
  | fail
  /-- matches the empty string -/
  | emptyStr
  /-- matches one literal character -/
  | char (c : Char)
  /-- `.`: matches any one character -/
  | anyChar
  /-- juxtaposition -/
  | concat (r1 r2 : Regex)
  /-- `|` -/
  | alt (r1 r2 : Regex)
  /-- `*` -/
  | star (r : Regex)

/-- Whether the empty string belongs to the language of `r`. -/
def Regex.nullable : Regex → Bool
  | .fail => false
  | .emptyStr => true
  | .char _ => false
  | .anyChar => false
  | .concat r1 r2 => r1.nullable && r2.nullable
  | .alt r1 r2 => r1.nullable || r2.nullable
  | .star _ => true

/-- Brzozowski derivative of `r` by the character `c`. -/
def Regex.deriv : Regex → Char → Regex
  | .fail, _ => .fail
  | .emptyStr, _ => .fail
  | .char c', c => if c' = c then .emptyStr else .fail
  | .anyChar, _ => .emptyStr
  | .concat r1 r2, c =>
      if r1.nullable then .alt (.concat (r1.deriv c) r2) (r2.deriv c)
      else .concat (r1.deriv c) r2
  | .alt r1 r2, c => .alt (r1.deriv c) (r2.deriv c)
  | .star r, c => .concat (r.deriv c) (.star r)

/-- Whole-word match: `cs` belongs to the language of `r`. -/
def Regex.fullmatch (r : Regex) (cs : List Char) : Bool :=
  (cs.foldl Regex.deriv r).nullable

/-- `re.match(r, s) is not None`: some head (`s.toList.take n`) of `s`
belongs to the language of `r` — anchored at the start, not required to
reach the end. -/
def reMatch (r : Regex) (s : String) : Bool :=
  (List.range (s.length + 1)).any fun n => r.fullmatch (s.toList.take n)

/-! ### `DataProcessor` (mapping, filters, validation)

Filter configurations are free-form dynamic values (`Dict[str, Any]` in
the source), so `_apply_filter` takes a `Value`.  The `datetime`
functions used by the `date` filter branch are external stdlib code,
abstracted as a `DateOracle` parameter.  Python raises that the
pipeline does not itself catch (`TypeError` from comparing a number
against a non-number `min`/`max` bound, `TypeError` from a non-string
`strftime` format) are embedded as `Except.error`. -/

/-- External `datetime` interface used by the `date` filter:
`fromiso` is `datetime.fromisoformat` (`none` embeds a raised
`ValueError`), `strftime`/`isoformat` format a parsed date. -/
structure DateOracle where
  fromiso : String → Option String
  strftime : String → String → String
  isoformat : String → String

/-- `k in d and d[k]` truthiness test. -/
def truthyOpt : Option Value → Bool
  | some v => truthy v
  | Option.none => false

/-- The `string` filter branch: lowercase, uppercase, strip, applied in
that order when each flag is present and truthy. -/
def stringFilter (fs : List (String × Value)) (s : String) : String :=
  let s1 := if truthyOpt (dlookup fs "lowercase") then s.toLower else s
  let s2 := if truthyOpt (dlookup fs "uppercase") then s1.toUpper else s1
  if truthyOpt (dlookup fs "strip") then s2.trim else s2

/-- The `number` filter branch: clamp below at `min` and above at `max`
when present (the clamped-to value is the configured bound itself);
comparing against a non-numeric bound is a `TypeError`. -/
def numberFilter (fs : List (String × Value)) (value : Value) : Except String Value :=
  let afterMin : Except String Value :=
    match dlookup fs "min" with
    | some m =>
        match numOf value, numOf m with
        | some vi, some mi => .ok (if vi < mi then m else value)
        | _, _ => .error "TypeError: comparison of number and non-number"
    | Option.none => .ok value
  match afterMin with
  | .error e => .error e
  | .ok v1 =>
      match dlookup fs "max" with
      | some mx =>
          match numOf v1, numOf mx with
          | some vi, some xi => .ok (if xi < vi then mx else v1)
          | _, _ => .error "TypeError: comparison of number and non-number"
      | Option.none => .ok v1

/-- The `date` filter branch: parse (with `"Z"` replaced by
`"+00:00"`); a parse failure (`ValueError`) is caught and leaves the
value unchanged; on success reformat with `format` if configured
(a non-string format is a `TypeError`), else `isoformat()`. -/
def dateFilter (o : DateOracle) (fs : List (String × Value)) (s : String) :
    Except String Value :=
  match o.fromiso (s.replace "Z" "+00:00") with
  | Option.none => .ok (.vStr s)
  | some d =>
      match dlookup fs "format" with
      | some (.vStr f) => .ok (.vStr (o.strftime d f))
      | some _ => .error "TypeError: strftime() argument must be str"
      | Option.none => .ok (.vStr (o.isoformat d))

/-- `DataProcessor._apply_filter`: dispatch on the configured `type`
and the runtime type of the value; any non-matching combination (model
`isinstance` semantics: booleans are numbers) leaves the value
unchanged. -/
def applyFilter (o : DateOracle) (value : Value) (fc : Value) : Except String Value :=
  match fc with
  | .vDict fs =>
      match dlookup fs "type" with
      | some ft =>
          if valEqStr ft "string" && isStr value then
            match value with
            | .vStr s => .ok (.vStr (stringFilter fs s))
            | _ => .ok value
          else if valEqStr ft "number" && isNum value then
            numberFilter fs value
          else if valEqStr ft "date" && isStr value then
            match value with
            | .vStr s => dateFilter o fs s
            | _ => .ok value
          else .ok value
      | Option.none => .ok value
  | _ => .ok value

/-- `ValidationSpec` (§3 of the design): the validation configuration
dict with one optional field per supported check.  `required` and
`expected_type` hold the raw configured values (tested for truthiness /
compared against the literal type names, as the code does);
`pattern` holds a compiled regex; `min_length`/`max_length` hold
integer bounds. -/
structure ValidationSpec where
  required : Option Value := Option.none
  expected_type : Option Value := Option.none
  pattern : Option Regex := Option.none
  min_length : Option Int := Option.none
  max_length : Option Int := Option.none

/-- `"required" in vc and vc["required"]` and the value is `None` or
`""`. -/
def requiredFails (value : Value) (c : ValidationSpec) : Bool :=
  match c.required with
  | some rv => truthy rv && isNullOrEmptyStr value
  | Option.none => false

/-- The `type` check of `_validate_field` (`isinstance` semantics:
booleans are numbers; unknown type names check nothing). -/
def typeFails (value : Value) (c : ValidationSpec) : Bool :=
  match c.expected_type with
  | some et =>
      if valEqStr et "string" then !isStr value
      else if valEqStr et "number" then !isNum value
      else if valEqStr et "boolean" then !isBool value
      else false
  | Option.none => false

/-- The `pattern` check: applies only to string values, fails when
`re.match` finds no match anchored at the start. -/
def patternFails (value : Value) (c : ValidationSpec) : Bool :=
  match c.pattern, value with
  | some r, .vStr s => !reMatch r s
  | _, _ => false

/-- The `min_length` check (string values only). -/
def minLengthFails (value : Value) (c : ValidationSpec) : Bool :=
  match c.min_length, value with
  | some n, .vStr s => decide ((s.length : Int) < n)
  | _, _ => false

/-- The `max_length` check (string values only). -/
def maxLengthFails (value : Value) (c : ValidationSpec) : Bool :=
  match c.max_length, value with
  | some n, .vStr s => decide (n < (s.length : Int))
  | _, _ => false

/-- `DataProcessor._validate_field`: the checks in source order, each
an early `return False`. -/
def validateField (value : Value) (c : ValidationSpec) : Bool :=
  if requiredFails value c then false
  else if typeFails value c then false
  else if patternFails value c then false
  else if minLengthFails value c then false
  else if maxLengthFails value c then false
  else true

/-- Loop body of the mapping stage:
`if source_field in record: transformed[target_field] = record[source_field]`. -/
def mapStep (record : List (String × Value)) (acc : List (String × Value))
    (p : String × String) : List (String × Value) :=
  match dlookup record p.1 with
  | some v => dset acc p.2 v
  | Option.none => acc

/-- The mapping stage of `_transform_record`: start from `{}` and copy
`record[source]` to the target name for every mapping entry whose
source field is present. -/
def applyMapping (record : List (String × Value)) (fm : List (String × String)) :
    List (String × Value) :=
  fm.foldl (mapStep record) []

/-- The filter stage of `_transform_record`: for every configured
field present in the record, replace its value by the filtered value. -/
def applyFilters (o : DateOracle) (d : List (String × Value))
    (ff : List (String × Value)) : Except String (List (String × Value)) :=
  ff.foldlM
    (fun acc p =>
      match dlookup acc p.1 with
      | some v => (applyFilter o v p.2).map (fun v' => dset acc p.1 v')
      | Option.none => pure acc)
    d

/-- Loop body of the validation stage: when the configured field is
present and fails validation, set its value to `None` in place. -/
def validateStep (acc : List (String × Value)) (p : String × ValidationSpec) :
    List (String × Value) :=
  match dlookup acc p.1 with
  | some v => if validateField v p.2 then acc else dset acc p.1 .vNull
  | Option.none => acc

/-- The validation stage of `_transform_record`: for every configured
field present in the record, set the value to `None` when validation
fails; the key is kept. -/
def applyValidation (d : List (String × Value))
    (dv : List (String × ValidationSpec)) : List (String × Value) :=
  dv.foldl validateStep d

/-- `DataProcessor._transform_record`: non-dict records pass through;
dict records go through mapping, filters and validation in order. -/
def transformRecord (o : DateOracle) (record : Value)
    (fm : List (String × String)) (ff : List (String × Value))
    (dv : List (String × ValidationSpec)) : Except String Value :=
  match record with
  | .vDict fields =>
      match applyFilters o (applyMapping fields fm) ff with
      | .ok filtered => .ok (.vDict (applyValidation filtered dv))
      | .error e => .error e
  | other => .ok other

/-! ### Concrete fixtures used by witnesses and counterexamples -/

/-- A date oracle whose parser always fails (the claims it appears in
never reach the date branch). -/
def idOracle : DateOracle :=
  ⟨fun _ => Option.none, fun d _ => d, fun d => d⟩

/-- A GET endpoint with a retry budget of 3. -/
def epRetry3 : ApiEndpoint :=
  ⟨"users", "/users", .get, [], [], Option.none, 30, 3, Option.none⟩

/-- A network script: the first `session.request` raises
`aiohttp.ClientError`, every later one returns HTTP 200. -/
def scriptFailThenOk : Nat → AttemptOutcome := fun n =>
  if n = 0 then .transportError "Cannot connect to host"
  else .response 200 (.vInt 1) "{}" [] "http://u/users"

/-- A network script that always returns HTTP 404. -/
def scriptHttp404 : Nat → AttemptOutcome := fun _ =>
  .response 404 .vNull "Not Found" [] "http://u/users"

/-! ## Theorems -/

/-! ### Rate limiting -/

theorem pruneLog_eq_self (log : List ℚ) (now : ℚ)
    (h : ∀ t ∈ log, now - t < 3600) : pruneLog now log = log := by
  apply List.filter_eq_self.mpr
  intro t ht
  simpa using h t ht

theorem min_choice_rat (a b : ℚ) : min a b = a ∨ min a b = b :=
  min_choice a b

/-- An admission check on a log of fewer than `requests_per_minute`
fresh timestamps (under a policy whose hourly budget exceeds the
per-minute budget) stores the log unchanged and admits the request. -/
theorem check_admit_of_below_limits (rl : RateLimit) (log : List ℚ) (now : ℚ)
    (hcount : (log.length : Int) < rl.requests_per_minute)
    (hmh : rl.requests_per_minute < rl.requests_per_hour)
    (hrecent : ∀ t ∈ log, now - t < 60) :
    (checkRateLimit rl log now).1 = log ∧
    ((checkRateLimit rl log now).2).isAdmit = true := by
  have hprune : pruneLog now log = log :=
    pruneLog_eq_self log now (fun t ht => by have := hrecent t ht; linarith)
  have hrec : log.filter (fun t => decide (now - t < 60)) = log := by
    apply List.filter_eq_self.mpr
    intro t ht
    simpa using hrecent t ht
  have hh : ¬ rl.requests_per_hour ≤ (log.length : Int) := by omega
  have hm : ¬ rl.requests_per_minute ≤ (log.length : Int) := by omega
  refine ⟨by simp [checkRateLimit, hprune], ?_⟩
  simp only [checkRateLimit, hprune, rateDecision, if_neg hh, minuteDecision, hrec,
    if_neg hm, paceDecision]
  cases log.getLast? with
  | none => rfl
  | some last =>
      by_cases h1 : 0 < rl.delay_between_requests
      · by_cases h2 : now - last < rl.delay_between_requests
        · simp [if_pos h1, if_pos h2, RateDecision.isAdmit]
        · simp [if_pos h1, if_neg h2, RateDecision.isAdmit]
      · simp [if_neg h1, RateDecision.isAdmit]

/-- An admission check on a log of exactly `requests_per_minute ≥ 1`
fresh timestamps (hourly budget still above the per-minute budget)
rejects with the per-minute reason and a positive advised wait, storing
the log unchanged. -/
theorem check_reject_at_minute (rl : RateLimit) (log : List ℚ) (now : ℚ)
    (hm : 1 ≤ rl.requests_per_minute)
    (hcount : (log.length : Int) = rl.requests_per_minute)
    (hmh : rl.requests_per_minute < rl.requests_per_hour)
    (hrecent : ∀ t ∈ log, now - t < 60) :
    ∃ w, 0 < w ∧ checkRateLimit rl log now = (log, .rejectMinute w) := by
  have hprune : pruneLog now log = log :=
    pruneLog_eq_self log now (fun t ht => by have := hrecent t ht; linarith)
  have hrec : log.filter (fun t => decide (now - t < 60)) = log := by
    apply List.filter_eq_self.mpr
    intro t ht
    simpa using hrecent t ht
  have hh : ¬ rl.requests_per_hour ≤ (log.length : Int) := by omega
  have hm2 : rl.requests_per_minute ≤ (log.length : Int) := le_of_eq hcount.symm
  obtain ⟨oldest, hmin⟩ : ∃ o, log.min? = some o := by
    cases log with
    | nil => simp at hcount; omega
    | cons a as => exact ⟨as.foldl min a, rfl⟩
  have hmem : oldest ∈ log := List.min?_mem min_choice_rat hmin
  have hw : 0 < 60 - (now - oldest) := by have := hrecent oldest hmem; linarith
  refine ⟨60 - (now - oldest), hw, ?_⟩
  simp [checkRateLimit, hprune, rateDecision, if_neg hh, minuteDecision, hrec,
    if_pos hm2, hmin, if_pos hw]
  intro hc
  linarith

/-- Burst induction: continuing a burst from a dispatched-prefix log
`pre`, with all instants of the burst within 60 seconds of one another
and `pre.length + rest.length = requests_per_minute + 1`, every check
but the last admits and the last check is a per-minute rejection. -/
theorem runBurst_aux (rl : RateLimit)
    (hm : 1 ≤ rl.requests_per_minute)
    (hmh : rl.requests_per_minute < rl.requests_per_hour) :
    ∀ rest pre : List ℚ,
      rest ≠ [] →
      (pre.length : Int) + rest.length = rl.requests_per_minute + 1 →
      (∀ a ∈ pre ++ rest, ∀ b ∈ pre ++ rest, b - a < 60) →
      ∃ ds w, 0 < w ∧ (runBurst rl pre rest).2 = ds ++ [.rejectMinute w] ∧
        ∀ d ∈ ds, d.isAdmit = true := by
  intro rest
  induction rest with
  | nil => intro pre h; exact absurd rfl h
  | cons t rest' ih =>
      intro pre _ hlen hwin
      have ht_mem : t ∈ pre ++ t :: rest' := by simp
      have hrecent : ∀ x ∈ pre, t - x < 60 := fun x hx =>
        hwin x (List.mem_append_left _ hx) t ht_mem
      cases hr : rest' with
      | nil =>
          subst hr
          have hcount : (pre.length : Int) = rl.requests_per_minute := by
            simp at hlen; omega
          obtain ⟨w, hw, hcheck⟩ :=
            check_reject_at_minute rl pre t hm hcount hmh hrecent
          refine ⟨[], w, hw, ?_, by simp⟩
          simp [runBurst, hcheck, RateDecision.isAdmit, RateDecision.isMinuteReject]
      | cons t2 rest'' =>
          have hne : rest' ≠ [] := by simp [hr]
          rw [← hr]
          have hlt : (pre.length : Int) < rl.requests_per_minute := by
            have : 1 ≤ rest'.length := by
              cases rest' with
              | nil => exact absurd rfl hne
              | cons _ _ => simp
            simp at hlen; omega
          obtain ⟨hfst, hadm⟩ := check_admit_of_below_limits rl pre t hlt hmh hrecent
          have hwin' : ∀ a ∈ (pre ++ [t]) ++ rest', ∀ b ∈ (pre ++ [t]) ++ rest',
              b - a < 60 := by
            intro a ha b hb
            rw [List.append_assoc, List.singleton_append] at ha hb
            exact hwin a ha b hb
          obtain ⟨ds, w, hw, hsnd, hds⟩ := ih (pre ++ [t]) hne
            (by simp at hlen ⊢; omega) hwin'
          refine ⟨(checkRateLimit rl pre t).2 :: ds, w, hw, ?_, ?_⟩
          · simp only [runBurst, hadm, hfst, if_true]
            rw [hsnd]
            rfl
          · intro d hd
            rcases List.mem_cons.mp hd with h | h
            · subst h; exact hadm
            · exact hds d h

/-- Claim C1 (amended): for a policy with
`1 ≤ requests_per_minute < requests_per_hour`, a burst of
`requests_per_minute + 1` requests all lying within 60 seconds of one
another (each dispatched request appending its timestamp to the log)
has every check before the last one admit, and the final admission
check rejects with the per-minute reason (`RateLimitExceededError`,
"Per-minute rate limit exceeded") and a positive advised wait. -/
theorem claim1_burst_minute_reject (rl : RateLimit) (ts : List ℚ)
    (hm : 1 ≤ rl.requests_per_minute)
    (hmh : rl.requests_per_minute < rl.requests_per_hour)
    (hlen : (ts.length : Int) = rl.requests_per_minute + 1)
    (hwin : ∀ a ∈ ts, ∀ b ∈ ts, b - a < 60) :
    ∃ ds w, 0 < w ∧ (runBurst rl [] ts).2 = ds ++ [.rejectMinute w] ∧
      ∀ d ∈ ds, d.isAdmit = true := by
  have hne : ts ≠ [] := by
    intro h
    subst h
    simp at hlen
    omega
  exact runBurst_aux rl hm hmh ts [] hne (by simpa using hlen) (by simpa using hwin)

/-- Witness for C1 (amended): policy `⟨2, 10, 0⟩`, burst at instants
`0, 0, 1`: two admissions, then a per-minute rejection. -/
theorem claim1_witness :
    ∃ ds w, 0 < w ∧ (runBurst ⟨2, 10, 0⟩ [] [0, 0, 1]).2 = ds ++ [.rejectMinute w] ∧
      ∀ d ∈ ds, d.isAdmit = true := by
  apply claim1_burst_minute_reject ⟨2, 10, 0⟩ [0, 0, 1]
  · norm_num
  · norm_num
  · norm_num
  · intro a ha b hb
    fin_cases ha <;> fin_cases hb <;> norm_num

/-- Claim C1 counterexample, refuting the claim as stated (which
quantifies over *every* policy and promises the per-minute reason):
under the policy `⟨2, 2, 0⟩` (per-minute 2, per-hour 2) a burst at
instants `0, 1, 2` is rejected at the third check with the *hourly*
reason, not the per-minute one; and under the policy `⟨0, 5, 0⟩` the
very first check runs `min([])`, raising `ValueError` rather than
`RateLimitExceededError`. -/
theorem claim1_counterexample :
    (runBurst ⟨2, 2, 0⟩ [] [0, 1, 2]).2
      = [.proceed, .proceed, .rejectHourly 3598] ∧
    RateDecision.isMinuteReject (.rejectHourly 3598) = false ∧
    (runBurst ⟨0, 5, 0⟩ [] [0]).2 = [.valueError] ∧
    RateDecision.isMinuteReject .valueError = false ∧
    RateDecision.isAdmit (.rejectHourly 3598) = false ∧
    RateDecision.isAdmit .valueError = false := by
  refine ⟨?_, rfl, ?_, rfl, rfl, rfl⟩
  · norm_num [runBurst, checkRateLimit, pruneLog, rateDecision, minuteDecision,
      paceDecision, RateDecision.isAdmit, List.min?]
  · norm_num [runBurst, checkRateLimit, pruneLog, rateDecision, minuteDecision,
      paceDecision, RateDecision.isAdmit, List.min?]

/-- Claim C6: every admission check first prunes the timestamp log to
entries strictly younger than 3600 seconds and stores the pruned log;
the stored log contains only entries within the trailing hour, and the
whole check (decision and stored log alike) is insensitive to the
dropped entries — so timestamps older than 3600 seconds are counted by
neither the hourly nor the per-minute check. -/
theorem claim6_prune_before_checks (rl : RateLimit) (log : List ℚ) (now : ℚ) :
    (checkRateLimit rl log now).1 = pruneLog now log ∧
    (∀ t ∈ (checkRateLimit rl log now).1, now - t < 3600) ∧
    checkRateLimit rl log now = checkRateLimit rl (pruneLog now log) now := by
  refine ⟨rfl, ?_, ?_⟩
  · intro t ht
    have ht' : t ∈ pruneLog now log := ht
    have := List.mem_filter.mp ht'
    simpa using this.2
  · have hidem : pruneLog now (pruneLog now log) = pruneLog now log :=
      List.filter_eq_self.mpr (fun a ha => (List.mem_filter.mp ha).2)
    simp [checkRateLimit, hidem]

/-- Witness for C6 at a concrete input: at `now = 3700` the entry `0`
(3700 seconds old) is dropped and the entry `500` (3200 seconds old) is
kept. -/
theorem claim6_witness :
    (checkRateLimit ⟨60, 1000, 0⟩ [0, 500] 3700).1 = pruneLog 3700 [0, 500] ∧
    (∀ t ∈ (checkRateLimit ⟨60, 1000, 0⟩ [0, 500] 3700).1, (3700 : ℚ) - t < 3600) ∧
    pruneLog 3700 [0, 500] = [500] :=
  ⟨(claim6_prune_before_checks ⟨60, 1000, 0⟩ [0, 500] 3700).1,
   (claim6_prune_before_checks ⟨60, 1000, 0⟩ [0, 500] 3700).2.1,
   by norm_num [pruneLog]⟩

/-! ### Retry loop -/

theorem initialKwargs_url (ep : ApiEndpoint) (url : String)
    (hdrs : List (String × String)) : (initialKwargs ep url hdrs).url = some url := by
  unfold initialKwargs
  cases ep.method <;> cases ep.body <;> dsimp only <;> split_ifs <;> rfl

/-- Claim C2 (code-bug exhibit): whenever the retry budget allows a
retry (`retry_attempts ≥ 1`) and the first attempt fails with a
transport error, the second loop iteration pops the already-consumed
`"url"` key from `request_kwargs`, raising `KeyError('url')`, which the
generic `except Exception` handler wraps as
`ApiClientError("Unexpected error during request: 'url'")` — so the
fetch fails after exactly one `session.request` call instead of
retrying, whatever the script would have returned later. -/
theorem claim2_retry_broken (ep : ApiEndpoint) (url : String)
    (hdrs : List (String × String)) (script : Nat → AttemptOutcome) (msg : String)
    (hra : 1 ≤ ep.retry_attempts)
    (h0 : script 0 = .transportError msg) :
    makeRequestAttempts ep url hdrs script
      = (.error (.unexpected (.keyError "url")), 1) := by
  unfold makeRequestAttempts
  obtain ⟨ra', hra'⟩ : ∃ ra', ep.retry_attempts = ra' + 1 :=
    ⟨ep.retry_attempts - 1, by omega⟩
  have hne : ¬ (0 = ep.retry_attempts) := by omega
  simp only [requestLoop, initialKwargs_url, h0, if_neg hne, hra']
  have h1 : ¬ (0 = ra' + 1) := by omega
  simp [h1]

/-- Witness for the C2 exhibit: endpoint with budget 3, transport error
on the first call, HTTP 200 afterwards — the fetch still dies with the
wrapped `KeyError` after one call. -/
theorem claim2_witness :
    makeRequestAttempts epRetry3 "http://u/users" [] scriptFailThenOk
      = (.error (.unexpected (.keyError "url")), 1) :=
  claim2_retry_broken epRetry3 "http://u/users" [] scriptFailThenOk
    "Cannot connect to host" (by norm_num [epRetry3]) rfl

/-- Claim C3: for every endpoint (any retry budget) whose first attempt
returns an HTTP response with status ≥ 400, `make_request` performs
exactly one `session.request` invocation and fails immediately — the
raised `ApiClientError(f"HTTP {status}: {text}")` (re-wrapped by the
generic handler as "Unexpected error during request: ...") carries the
status and the response body text; the attempt is never retried. -/
theorem claim3_http_error_no_retry (ep : ApiEndpoint) (url : String)
    (hdrs : List (String × String)) (script : Nat → AttemptOutcome)
    (status : Nat) (parsed : Value) (text : String)
    (rh : List (String × String)) (ru : String)
    (hs : 400 ≤ status)
    (h0 : script 0 = .response status parsed text rh ru) :
    makeRequestAttempts ep url hdrs script
      = (.error (.unexpected (.apiHttpError status text)), 1) := by
  unfold makeRequestAttempts
  simp only [requestLoop, initialKwargs_url, h0, if_pos hs]

/-- Witness for C3: a 404 with body `"Not Found"` on an endpoint with
retry budget 3 fails after exactly one call, carrying `404` and the
body text. -/
theorem claim3_witness :
    makeRequestAttempts epRetry3 "http://u/users" [] scriptHttp404
      = (.error (.unexpected (.apiHttpError 404 "Not Found")), 1) :=
  claim3_http_error_no_retry epRetry3 "http://u/users" [] scriptHttp404
    404 .vNull "Not Found" [] "http://u/users" (by norm_num) rfl

/-! ### Header assembly -/

theorem buildAuthHeaders_keys_nodup (a : Authentication) :
    (dkeys (buildAuthHeaders a)).Nodup := by
  unfold buildAuthHeaders
  cases a.type
  · simp [dkeys]
  · split_ifs <;> simp [dkeys]
  · split_ifs <;> simp [dkeys]
  · split_ifs <;> simp [dkeys]
  · simp [dkeys]

/-- Claim C4 (amended): in the assembled request headers
(`headers = endpoint.headers.copy(); headers.update(auth_headers)`),
on any key present in both maps the *auth-derived* header value takes
precedence over the endpoint-declared one — the `update` overwrites the
endpoint value — while keys carrying no auth-derived binding keep their
endpoint-declared value. -/
theorem claim4_auth_headers_win (eh : List (String × String))
    (a : Authentication) (k : String) :
    (∀ v, dlookup (buildAuthHeaders a) k = some v →
        dlookup (assembleHeaders eh a) k = some v) ∧
    (dlookup (buildAuthHeaders a) k = Option.none →
        dlookup (assembleHeaders eh a) k = dlookup eh k) := by
  have h := dlookup_dupdate (buildAuthHeaders a) (buildAuthHeaders_keys_nodup a) eh k
  constructor
  · intro v hv
    unfold assembleHeaders
    rw [h, hv]
  · intro hv
    unfold assembleHeaders
    rw [h, hv]

/-- Witness for C4 (amended): the bearer token wins the
`Authorization` conflict. -/
theorem claim4_witness :
    dlookup
      (assembleHeaders [("Authorization", "endpoint-token")]
        { type := .bearer_token, bearer_token := some "tok" })
      "Authorization" = some "Bearer tok" :=
  (claim4_auth_headers_win [("Authorization", "endpoint-token")]
      { type := .bearer_token, bearer_token := some "tok" } "Authorization").1
    "Bearer tok" rfl

/-- Claim C4 counterexample, refuting the claim as stated: an endpoint
declaring `Authorization: endpoint-token` together with bearer-token
authentication `tok` produces `Authorization: Bearer tok` — the
endpoint-declared value does *not* take precedence. -/
theorem claim4_counterexample :
    dlookup
      (assembleHeaders [("Authorization", "endpoint-token")]
        { type := .bearer_token, bearer_token := some "tok" })
      "Authorization" = some "Bearer tok" ∧
    ("Bearer tok" : String) ≠ "endpoint-token" := by
  exact ⟨rfl, by decide⟩

/-! ### Path extraction -/

/-- Claim C5: if the path does not start with `"$."`, or navigation
fails at some segment (the segment is not a key of the current dict, or
the current value is a list and the segment is not an in-range
non-negative integer index, or the current value is a scalar), then
`_extract_data_path` returns the original input value unchanged and
whole — never a partial sub-value, and (being total) never an
exception. -/
theorem claim5_extract_fails_soft (data : Value) (p : String)
    (h : ∀ rest, p.toList = '$' :: '.' :: rest →
        navigate data (splitOnChar '.' rest) = Option.none) :
    extractDataPath data p = data := by
  unfold extractDataPath
  split
  · rename_i rest heq
    rw [h rest heq]
  · rfl

/-- Witness for C5: `{"a": 1}` with the path `"$.bad"` comes back
unchanged. -/
theorem claim5_witness :
    extractDataPath (.vDict [("a", .vInt 1)]) "$.bad" = .vDict [("a", .vInt 1)] := by
  apply claim5_extract_fails_soft
  intro rest h
  have h2 : '$' :: '.' :: ['b', 'a', 'd'] = '$' :: '.' :: rest := h
  injection h2 with _ h3
  injection h3 with _ h4
  rw [← h4]
  rfl

/-! ### Record transformation -/

theorem mem_dkeys_iff_dmem {α : Type} (d : List (String × α)) (k : String) :
    k ∈ dkeys d ↔ dmem d k = true := by
  induction d with
  | nil => simp [dkeys, dmem, dlookup]
  | cons hd tl ih =>
      obtain ⟨k₀, v₀⟩ := hd
      by_cases h : k₀ = k
      · subst h
        simp [dkeys, dmem, dlookup]
      · have h' : ¬(k = k₀) := fun hh => h hh.symm
        have hd : dmem ((k₀, v₀) :: tl) k = dmem tl k := by
          simp [dmem, dlookup, h]
        rw [hd]
        simp only [dkeys, List.map_cons, List.mem_cons]
        constructor
        · rintro (h1 | h1)
          · exact absurd h1 h'
          · exact ih.mp h1
        · intro h1
          exact Or.inr (ih.mpr h1)

theorem applyMapping_dmem_aux (record : List (String × Value)) :
    ∀ (fm : List (String × String)) (acc : List (String × Value)) (k : String),
      dmem (fm.foldl (mapStep record) acc) k
        = (fm.any (fun p => p.2 == k && dmem record p.1) || dmem acc k) := by
  intro fm
  induction fm with
  | nil => intro acc k; simp
  | cons p tl ih =>
      intro acc k
      obtain ⟨s₀, t₀⟩ := p
      simp only [List.foldl_cons, List.any_cons]
      rw [ih]
      cases hl : dlookup record s₀ with
      | none => simp [mapStep, hl, dmem]
      | some v =>
          by_cases hk : k = t₀
          · subst hk
            have hd : dmem (dset acc k v) k = true := by
              simp [dmem, dlookup_dset_self]
            have hr : dmem record s₀ = true := by simp [dmem, hl]
            simp only [mapStep, hl, hd, hr, beq_self_eq_true, Bool.true_and,
              Bool.or_true, Bool.true_or]
          · have hk' : ¬(t₀ = k) := fun hh => hk hh.symm
            have hd : dmem (dset acc t₀ v) k = dmem acc k := by
              rw [dmem_dset]
              simp [hk]
            have hr : dmem record s₀ = true := by simp [dmem, hl]
            have ht : (t₀ == k) = false := by
              simp only [beq_eq_false_iff_ne, ne_eq]
              exact hk'
            simp only [mapStep, hl, hd, hr, ht, Bool.false_and, Bool.and_true,
              Bool.false_or, Bool.or_assoc]

/-- The keys of the mapped record, computationally: exactly the targets
of mapping entries whose source is present in the input record. -/
theorem applyMapping_dmem (record : List (String × Value))
    (fm : List (String × String)) (k : String) :
    dmem (applyMapping record fm) k
      = fm.any (fun p => p.2 == k && dmem record p.1) := by
  have h := applyMapping_dmem_aux record fm [] k
  simpa [applyMapping, dmem, dlookup] using h

/-- Claim C7: the mapping stage produces a record whose keys are
exactly the target names of the mapping entries whose source field is
present in the input (unmapped input fields dropped, absent sources
contributing nothing); and concretely, `{"id": "user_id"}` applied to
`{"id": 1, "extra": "x"}` through the whole `_transform_record` (empty
filters/validation) yields exactly `{"user_id": 1}`. -/
theorem claim7_mapping_keys (record : List (String × Value))
    (fm : List (String × String)) (k : String) :
    (k ∈ dkeys (applyMapping record fm) ↔
      ∃ s, (s, k) ∈ fm ∧ dmem record s = true) ∧
    ∀ o : DateOracle,
      transformRecord o (.vDict [("id", .vInt 1), ("extra", .vStr "x")])
        [("id", "user_id")] [] [] = .ok (.vDict [("user_id", .vInt 1)]) := by
  refine ⟨?_, fun o => rfl⟩
  rw [mem_dkeys_iff_dmem, applyMapping_dmem]
  constructor
  · intro h
    obtain ⟨p, hp, hcond⟩ := List.any_eq_true.mp h
    obtain ⟨s, t⟩ := p
    simp only [Bool.and_eq_true, beq_iff_eq] at hcond
    obtain ⟨ht, hm⟩ := hcond
    subst ht
    exact ⟨s, hp, hm⟩
  · rintro ⟨s, hs, hm⟩
    exact List.any_eq_true.mpr ⟨(s, k), hs, by simp [hm]⟩

/-- Witness for C7 at a concrete input: the mapped keys of
`{"id": 1, "extra": "x"}` under `{"id": "user_id"}` contain
`"user_id"`, and the whole record transform yields `{"user_id": 1}`. -/
theorem claim7_witness :
    ("user_id" ∈ dkeys (applyMapping [("id", Value.vInt 1), ("extra", Value.vStr "x")]
        [("id", "user_id")]) ↔
      ∃ s, (s, "user_id") ∈ [("id", "user_id")] ∧
        dmem [("id", Value.vInt 1), ("extra", Value.vStr "x")] s = true) ∧
    transformRecord idOracle (.vDict [("id", .vInt 1), ("extra", .vStr "x")])
      [("id", "user_id")] [] [] = .ok (.vDict [("user_id", .vInt 1)]) :=
  ⟨(claim7_mapping_keys [("id", .vInt 1), ("extra", .vStr "x")]
      [("id", "user_id")] "user_id").1,
   (claim7_mapping_keys [("id", .vInt 1), ("extra", .vStr "x")]
      [("id", "user_id")] "user_id").2 idOracle⟩

theorem validateStep_lookup_ne (acc : List (String × Value))
    (p : String × ValidationSpec) (g : String) (h : g ≠ p.1) :
    dlookup (validateStep acc p) g = dlookup acc g := by
  obtain ⟨f, cfg⟩ := p
  simp only [validateStep]
  cases hl : dlookup acc f with
  | none => rfl
  | some v =>
      by_cases hv : validateField v cfg
      · simp [hv]
      · simp only [hv, if_false, Bool.false_eq_true, ite_false]
        exact dlookup_dset_ne acc f g Value.vNull h

theorem validateStep_dkeys (acc : List (String × Value))
    (p : String × ValidationSpec) : dkeys (validateStep acc p) = dkeys acc := by
  obtain ⟨f, cfg⟩ := p
  simp only [validateStep]
  cases hl : dlookup acc f with
  | none => rfl
  | some v =>
      by_cases hv : validateField v cfg
      · simp [hv]
      · simp only [hv, if_false, Bool.false_eq_true, ite_false]
        exact dkeys_dset_of_mem acc f Value.vNull (by simp [dmem, hl])

theorem applyValidation_dkeys (dv : List (String × ValidationSpec))
    (acc : List (String × Value)) :
    dkeys (applyValidation acc dv) = dkeys acc := by
  induction dv generalizing acc with
  | nil => rfl
  | cons p tl ih =>
      simp only [applyValidation, List.foldl_cons]
      rw [show tl.foldl validateStep (validateStep acc p)
            = applyValidation (validateStep acc p) tl from rfl]
      rw [ih (validateStep acc p), validateStep_dkeys]

theorem applyValidation_lookup_of_not_mem (dv : List (String × ValidationSpec))
    (acc : List (String × Value)) (g : String) (hg : g ∉ dkeys dv) :
    dlookup (applyValidation acc dv) g = dlookup acc g := by
  induction dv generalizing acc with
  | nil => rfl
  | cons p tl ih =>
      simp only [dkeys, List.map_cons, List.mem_cons, not_or] at hg
      simp only [applyValidation, List.foldl_cons]
      rw [show tl.foldl validateStep (validateStep acc p)
            = applyValidation (validateStep acc p) tl from rfl]
      rw [ih (validateStep acc p) hg.2]
      exact validateStep_lookup_ne acc p g hg.1

theorem applyValidation_lookup (dv : List (String × ValidationSpec))
    (hnd : (dkeys dv).Nodup) :
    ∀ (acc : List (String × Value)) (f : String) (v : Value),
      dlookup acc f = some v →
      dlookup (applyValidation acc dv) f =
        some (match dlookup dv f with
              | some cfg => if validateField v cfg then v else .vNull
              | Option.none => v) := by
  induction dv with
  | nil =>
      intro acc f v hv
      simpa [applyValidation, dlookup] using hv
  | cons p tl ih =>
      obtain ⟨f₀, cfg₀⟩ := p
      simp only [dkeys, List.map_cons, List.nodup_cons] at hnd
      obtain ⟨hf₀, hnd'⟩ := hnd
      intro acc f v hv
      simp only [applyValidation, List.foldl_cons]
      rw [show tl.foldl validateStep (validateStep acc (f₀, cfg₀))
            = applyValidation (validateStep acc (f₀, cfg₀)) tl from rfl]
      by_cases hf : f = f₀
      · subst hf
        have hstep : dlookup (validateStep acc (f, cfg₀)) f
            = some (if validateField v cfg₀ then v else .vNull) := by
          simp only [validateStep, hv]
          by_cases hval : validateField v cfg₀
          · simp [hval, hv]
          · simp [hval, dlookup_dset_self]
        rw [applyValidation_lookup_of_not_mem tl _ f hf₀, hstep]
        simp [dlookup]
      · have hf' : ¬(f₀ = f) := fun hh => hf hh.symm
        rw [ih hnd' (validateStep acc (f₀, cfg₀)) f v
          ((validateStep_lookup_ne acc (f₀, cfg₀) f hf).trans hv)]
        simp [dlookup, hf']

/-- Claim C8: for every (transformed) record and every validation
configuration with distinct configured field names, the validation
stage keeps the record's keys exactly (in order) — it never discards
the record or a field — and every present field's value is either left
unchanged (no configured check, or the check passes) or replaced by
`None` in place when its check fails.  The stage is a total function:
it never raises. -/
theorem claim8_validation_nulls_and_frames (transformed : List (String × Value))
    (dv : List (String × ValidationSpec)) (hnd : (dkeys dv).Nodup) :
    dkeys (applyValidation transformed dv) = dkeys transformed ∧
    ∀ f v, dlookup transformed f = some v →
      dlookup (applyValidation transformed dv) f =
        some (match dlookup dv f with
              | some cfg => if validateField v cfg then v else .vNull
              | Option.none => v) :=
  ⟨applyValidation_dkeys dv transformed,
   fun f v hv => applyValidation_lookup dv hnd transformed f v hv⟩

/-- Witness for C8, at the spec's example: `{required: true}` on an
empty-string field `"name"` nulls `"name"` in place and leaves the rest
of the record (`"age"`) intact. -/
theorem claim8_witness :
    dkeys (applyValidation [("name", Value.vStr ""), ("age", Value.vInt 3)]
        [("name", { required := some (.vBool true) })])
      = ["name", "age"] ∧
    dlookup (applyValidation [("name", Value.vStr ""), ("age", Value.vInt 3)]
        [("name", { required := some (.vBool true) })]) "name"
      = some Value.vNull ∧
    dlookup (applyValidation [("name", Value.vStr ""), ("age", Value.vInt 3)]
        [("name", { required := some (.vBool true) })]) "age"
      = some (Value.vInt 3) := by
  have h := claim8_validation_nulls_and_frames
    [("name", Value.vStr ""), ("age", Value.vInt 3)]
    [("name", { required := some (.vBool true) })] (by simp [dkeys])
  refine ⟨by rw [h.1]; rfl, ?_, ?_⟩
  · have h2 := h.2 "name" (Value.vStr "") rfl
    rw [h2]
    rfl
  · have h2 := h.2 "age" (Value.vInt 3) rfl
    rw [h2]
    rfl

/-- A validation configuration carrying only a `pattern` check. -/
def patternOnly (r : Regex) : ValidationSpec :=
  { pattern := some r }

/-- Claim C9 (amended): for a string value and a `pattern` regex, the
pattern check fails exactly when no head of the string matches the
regex anchored at the start (`re.match` semantics): a match that
consumes only a proper part of the string anchored at position 0 is
sufficient to pass — a full match is *not* required.  Accordingly the
field is nulled exactly when `re.match` finds nothing. -/
theorem claim9_pattern_match_semantics (r : Regex) (s : String) :
    validateField (.vStr s) (patternOnly r) = reMatch r s ∧
    applyValidation [("f", .vStr s)] [("f", patternOnly r)]
      = [("f", if reMatch r s then .vStr s else .vNull)] := by
  have h1 : validateField (.vStr s) (patternOnly r) = reMatch r s := by
    simp only [validateField, patternOnly, requiredFails, typeFails, patternFails,
      minLengthFails, maxLengthFails]
    cases reMatch r s <;> simp
  refine ⟨h1, ?_⟩
  by_cases hm : reMatch r s = true
  · simp [applyValidation, validateStep, dlookup, h1, hm, dset]
  · simp [applyValidation, validateStep, dlookup, h1, hm, dset]

/-- Claim C9 counterexample, refuting the claim as stated: the value
`"ab"` does not fully match the regex `a` from the start
(`fullmatch` is false), yet the pattern check passes (`re.match` finds
the one-character head `"a"`), so the field is not nulled. -/
theorem claim9_counterexample :
    validateField (.vStr "ab") (patternOnly (.char 'a')) = true ∧
    Regex.fullmatch (.char 'a') "ab".toList = false := by
  exact ⟨rfl, rfl⟩

/-- The `"type"` key of a filter configuration, when the configuration
is a dict that has one. -/
def filterTypeKey : Value → Option Value
  | .vDict fs => dlookup fs "type"
  | _ => Option.none

/-- Claim C10: for every value and filter configuration, if the
configuration is not a dict with a `"type"` key, or its declared type
does not match the value's runtime type (`string` on a non-string,
`number` on a non-number — `isinstance` semantics, under which booleans
are numbers —, `date` on a non-string), then `_apply_filter` returns
the value completely unchanged and raises nothing (`Except.ok`). -/
theorem claim10_filter_mismatch_unchanged (o : DateOracle) (v c : Value)
    (h : filterTypeKey c = Option.none ∨
         (∃ t, filterTypeKey c = some t ∧
            ((valEqStr t "string" = true ∧ isStr v = false) ∨
             (valEqStr t "number" = true ∧ isNum v = false) ∨
             (valEqStr t "date" = true ∧ isStr v = false)))) :
    applyFilter o v c = .ok v := by
  cases c with
  | vDict fs =>
      simp only [filterTypeKey] at h
      rcases h with h | ⟨t, ht, hcase⟩
      · simp [applyFilter, h]
      · have htt : ∃ ts, t = Value.vStr ts := by
          rcases hcase with ⟨h1, _⟩ | ⟨h1, _⟩ | ⟨h1, _⟩ <;>
            (cases t <;> simp [valEqStr] at h1 <;> exact ⟨_, rfl⟩)
        obtain ⟨ts, rfl⟩ := htt
        rcases hcase with ⟨h1, h2⟩ | ⟨h1, h2⟩ | ⟨h1, h2⟩ <;>
          simp only [valEqStr, beq_iff_eq] at h1 <;> subst h1 <;>
          simp [applyFilter, ht, valEqStr, h2]
  | vNull => rcases h with h | ⟨t, ht, _⟩
             · simp [applyFilter]
             · simp [filterTypeKey] at ht
  | vBool b => rcases h with h | ⟨t, ht, _⟩
               · simp [applyFilter]
               · simp [filterTypeKey] at ht
  | vInt n => rcases h with h | ⟨t, ht, _⟩
              · simp [applyFilter]
              · simp [filterTypeKey] at ht
  | vStr s => rcases h with h | ⟨t, ht, _⟩
              · simp [applyFilter]
              · simp [filterTypeKey] at ht
  | vList xs => rcases h with h | ⟨t, ht, _⟩
                · simp [applyFilter]
                · simp [filterTypeKey] at ht

/-- Witness for C10: a non-dict configuration (`"nope"`) and a
`number` filter applied to a string both leave the value unchanged. -/
theorem claim10_witness :
    applyFilter idOracle (.vInt 5) (.vStr "nope") = .ok (.vInt 5) ∧
    applyFilter idOracle (.vStr "x") (.vDict [("type", .vStr "number")])
      = .ok (.vStr "x") :=
  ⟨claim10_filter_mismatch_unchanged idOracle (.vInt 5) (.vStr "nope")
      (Or.inl rfl),
   claim10_filter_mismatch_unchanged idOracle (.vStr "x")
      (.vDict [("type", .vStr "number")])
      (Or.inr ⟨.vStr "number", rfl, Or.inr (Or.inl ⟨rfl, rfl⟩)⟩)⟩

end ApiClientSpec
